import Mathlib

/-!
Verification of the moodlight-server core logic against its specification.

The development shallowly embeds the two stateful services of the repository:

* `QuestionService` (daily question rotation) — from the unnamed source file
  containing `QuestionService`;
* `AuthService` (join / confirm / login / password change) — from
  `src/auth/auth.service.ts`.

Persistent stores (TypeORM repositories) are modelled as lists of records;
`findOne` on a criteria object becomes `List.find?`, `update` becomes a
`List.map` guarded by the criteria, `delete` becomes a `List.filter`, and
`create` + `save` appends a record with a fresh auto-increment id.
-/

namespace Moodlight

/-! ## Question rotation (`QuestionService`) -/

/-- A row of the `questions` table: id, contents, activation flag and the
`YYYY-MM-DD` activation date stamp (`none` while never stamped). -/
structure Question where
  id : Nat
  contents : String
  activated : Bool
  activated_date : Option String
  deriving Repr, DecidableEq

/-- The question store (the `questions` table, in insertion order). -/
structure QuestionStore where
  questions : List Question
  deriving Repr, DecidableEq

/-- The body of the closure returned by
`QuestionService.activateQuestionTemplate(activated)`: look up the id of a
question with the given `activated` flag (ordered by `id DESC` only in the
`activated = true` case, exactly as the source spreads
`...(activated ? { order: { id: 'DESC' } } : {})`), then update that row to
the opposite flag and stamp `activated_date` with today.  When no row
matches, the looked-up id is `undefined` and the update matches nothing. -/
def activateQuestionTemplateBody (today : String) (activated : Bool)
    (s : QuestionStore) : QuestionStore :=
  let candidates := s.questions.filter (fun q => q.activated == activated)
  let found :=
    if activated then
      candidates.foldl
        (fun acc q =>
          match acc with
          | none => some q
          | some m => if m.id < q.id then some q else some m)
        none
    else
      candidates.head?
  match found with
  | none => s
  | some q =>
      { questions :=
          s.questions.map (fun w =>
            if w.id == q.id then
              { w with activated := !activated, activated_date := some today }
            else w) }

/-- Embeds `QuestionService.activateQuestionTemplate(activated)` itself: it does not
run the update — it merely returns the closure that would. -/
def activateQuestionTemplate (today : String) (activated : Bool) :
    QuestionStore → QuestionStore :=
  activateQuestionTemplateBody today activated

/-- Embeds `QuestionService.updateTodayQuestion` (the midnight cron job): the source
builds the two closures and passes them to `Promise.all` without ever
invoking them (`Promise.all([this.activateQuestionTemplate(true),
this.activateQuestionTemplate(false)])`).  `Promise.all` over two plain
function values resolves immediately with those values, so neither closure
body runs and the store is left untouched. -/
def updateTodayQuestion (today : String) (s : QuestionStore) : QuestionStore :=
  let resolved := [activateQuestionTemplate today true,
                   activateQuestionTemplate today false]
  match resolved with
  | _ => s

/-- The scenario store from the spec: question 1 activated, question 2 not. -/
def q12store : QuestionStore :=
  { questions :=
      [ { id := 1, contents := "q1", activated := true, activated_date := none },
        { id := 2, contents := "q2", activated := false, activated_date := none } ] }

/-! ## Authentication (`AuthService`) -/

/-- Modelled from the spec: `PasswordCrypto.hash` (bcrypt with cost 12) —
the external hashing collaborator.  Modelled as a deterministic injective
digest; its only properties used below are that comparison recomputes and
compares, and that a digest is never the empty string. -/
def encryptPassword (plain : String) : String :=
  "bcrypt12$" ++ plain

/-- Modelled from the spec: `PasswordCrypto.verify` (`bcrypt.compare`) —
succeeds exactly when the stored digest is the digest of the plaintext. -/
def bcryptCompare (plain hashed : String) : Bool :=
  hashed == encryptPassword plain

/-- The verification `mode` column: `'join' | 'change_password'`. -/
inductive VMode where
  | join
  | change_password
  deriving Repr, DecidableEq

/-- The pending-user payload that `join` serializes with `JSON.stringify`
into the verification's `user` column and `confirm` reads back with
`JSON.parse`: the hashed password and the computed admin flag. -/
structure PendingPayload where
  password : String
  is_admin : Bool
  deriving Repr, DecidableEq

/-- A row of the `verifications` table.  `nickname` and `user` are set for
`join`-mode rows and absent for `change_password`-mode rows. -/
structure VerificationRec where
  id : Nat
  email : String
  nickname : Option String
  confirmCode : String
  mode : VMode
  user : Option PendingPayload
  deriving Repr, DecidableEq

/-- A row of the `users` table (the fields the auth workflow touches). -/
structure UserRec where
  id : Nat
  email : String
  nickname : Option String
  password : String
  is_admin : Bool
  deriving Repr, DecidableEq

/-- The persistent state the auth workflow acts on: the two stores plus the
auto-increment counters handing out fresh primary keys. -/
structure AuthState where
  users : List UserRec
  verifications : List VerificationRec
  nextUserId : Nat
  nextVerificationId : Nat
  deriving Repr, DecidableEq

/-- A value thrown inside a service method: either one of the ad hoc message
strings the source throws, or the shared `UNAUTHORIZED_EXCEPTION` constant. -/
inductive Thrown where
  | msg (s : String)
  | unauthorized
  deriving Repr, DecidableEq

/-- The error kinds of the spec's error-handling design. -/
inductive ErrKind where
  | Conflict
  | Unauthorized
  | NotFound
  deriving Repr, DecidableEq

/-- The uniform user-facing failure object. -/
structure ErrReport where
  kind : ErrKind
  message : String
  deriving Repr, DecidableEq

/-- Modelled from the spec: `exceptionHandler` (`src/utils/error.ts`, not in
the provided sources) — the single error-translation boundary.  It accepts
any thrown value and produces a uniform failure report, mapping duplicate
signals to `Conflict`, bad credentials to `Unauthorized` and absence to
`NotFound`, with a default fallback; it reports the failure on the shared
error channel rather than altering the method's return value. -/
def exceptionHandler : Thrown → ErrReport
  | Thrown.unauthorized => { kind := ErrKind.Unauthorized, message := "Unauthorized" }
  | Thrown.msg m =>
      { kind :=
          if m == "Email already exists." || m == "Nickname already exists." then
            ErrKind.Conflict
          else if m == "Verification does not exists."
              || m == "User email does not exist." then
            ErrKind.NotFound
          else ErrKind.Conflict,
        message := m }

/-- The generic success acknowledgment `SUCCESS_RESPONSE`. -/
structure StatusResponse where
  success : Bool
  deriving Repr, DecidableEq

/-- Modelled from the spec: the constant success status most mutating
operations return. -/
def SUCCESS_RESPONSE : StatusResponse := { success := true }

/-- Outcome of a mutating auth operation: the resulting store state, the
value caught by the `catch` block and handed to the error boundary (if the
`try` block threw), and the returned status. -/
structure OpOut where
  state : AuthState
  caught : Option Thrown
  ret : StatusResponse
  deriving Repr, DecidableEq

/-- Configuration source: the `ADMIN_KEY` setting `join` compares against. -/
structure Config where
  adminKey : String
  deriving Repr, DecidableEq

/-- Modelled from the spec: `UserService.findUserByEmail` — lookup by the
unique email column. -/
def findUserByEmail (s : AuthState) (email : String) : Option UserRec :=
  s.users.find? (fun u => u.email == email)

/-- Modelled from the spec: `UserService.findUserByNickname` — lookup by the
unique nickname column. -/
def findUserByNickname (s : AuthState) (nickname : String) : Option UserRec :=
  s.users.find? (fun u => u.nickname == some nickname)

/-- Embeds `AuthService.findVerification`: `verificationRepository.findOne({email, mode})`. -/
def findVerification (s : AuthState) (email : String) (mode : VMode) :
    Option VerificationRec :=
  s.verifications.find? (fun v => v.email == email && v.mode == mode)

/-- Embeds `AuthService.deleteVerification`: `verificationRepository.delete({email, mode})`
removes every row matching the criteria. -/
def deleteVerification (s : AuthState) (email : String) (mode : VMode) : AuthState :=
  { s with verifications :=
      s.verifications.filter (fun v => !(v.email == email && v.mode == mode)) }

/-- Embeds `AuthService.findUserPassword({email})`: selective fetch of the stored
hash (`findOne({ where, select: ['password'] })?.password`). -/
def findUserPassword (s : AuthState) (email : String) : Option String :=
  (findUserByEmail s email).map (fun u => u.password)

/-- The column values `join` writes (`verificationDto`): email, nickname,
fresh confirm code and the serialized pending payload.  No `mode` column is
given; on insert the entity default `join` applies. -/
structure JoinVerificationDto where
  email : String
  nickname : String
  confirmCode : String
  user : PendingPayload
  deriving Repr, DecidableEq

/-- The column assignment `verificationRepository.update(id, verificationDto)`
performs on a matched row: the dto's columns are set; `id` and `mode` are not
among the given columns and keep their values. -/
def applyJoinDto (dto : JoinVerificationDto) (w : VerificationRec) : VerificationRec :=
  { w with email := dto.email, nickname := some dto.nickname,
           confirmCode := dto.confirmCode, user := some dto.user }

/-- Embeds `verificationRepository.update(id, verificationDto)` in `join`: set the
dto's columns on every row whose primary key matches. -/
def updateVerificationJoinDto (s : AuthState) (rowId : Nat)
    (dto : JoinVerificationDto) : AuthState :=
  { s with verifications :=
      s.verifications.map (fun w =>
        if w.id == rowId then applyJoinDto dto w else w) }

/-- Embeds `verificationRepository.create(dto)` + `save` in `join`: insert a fresh
row with the dto's columns and the entity defaults (`mode = join`). -/
def insertVerificationJoinDto (s : AuthState) (dto : JoinVerificationDto) : AuthState :=
  { s with
      verifications :=
        s.verifications ++
          [ { id := s.nextVerificationId, email := dto.email,
              nickname := some dto.nickname, confirmCode := dto.confirmCode,
              mode := VMode.join, user := some dto.user } ],
      nextVerificationId := s.nextVerificationId + 1 }

/-- Outcome of `AuthService.checkJoinDataAvailability`. -/
inductive Availability where
  | Email
  | Nickname
  | available
  deriving Repr, DecidableEq

/-- Embeds `AuthService.checkJoinDataAvailability({email, nickname})`: looks up a
verification **by nickname**, a user by nickname and a user by email; if any
exists, reports `Email` when the user-by-email lookup hit and `Nickname`
otherwise. -/
def checkJoinDataAvailability (s : AuthState) (email nickname : String) :
    Availability :=
  let verificationIsExist := s.verifications.find? (fun v => v.nickname == some nickname)
  let nicknameIsExist := findUserByNickname s nickname
  let emailIsExist := findUserByEmail s email
  if nicknameIsExist.isSome || emailIsExist.isSome || verificationIsExist.isSome then
    if emailIsExist.isSome then Availability.Email else Availability.Nickname
  else Availability.available

/-- The message thrown on an availability failure. -/
def availabilityMessage : Availability → String
  | Availability.Email => "Email already exists."
  | Availability.Nickname => "Nickname already exists."
  | Availability.available => "available already exists."

/-- Embeds `AuthService.join`: if a `(email, join)` verification exists, overwrite
it in place with the freshly generated code, the newly hashed password and
the recomputed admin flag; otherwise check availability (throwing a
"... already exists." string on a collision) and insert a fresh row.  The
confirmation email is sent last and has no effect on the stores.  Any thrown
value is caught and handed to the error boundary; the method returns
`SUCCESS_RESPONSE` on every path.  `confirmCode` stands for the value of
`AuthService.createConfirmCode()` (a random 6-digit string). -/
def join (cfg : Config) (confirmCode : String)
    (email plain nickname adminKey : String) (s : AuthState) : OpOut :=
  let emailHasVerification := findVerification s email VMode.join
  let password := encryptPassword plain
  let verificationDto : JoinVerificationDto :=
    { email := email, nickname := nickname, confirmCode := confirmCode,
      user := { password := password, is_admin := adminKey == cfg.adminKey } }
  match emailHasVerification with
  | some v =>
      { state := updateVerificationJoinDto s v.id verificationDto,
        caught := none, ret := SUCCESS_RESPONSE }
  | none =>
      match checkJoinDataAvailability s email nickname with
      | Availability.available =>
          { state := insertVerificationJoinDto s verificationDto,
            caught := none, ret := SUCCESS_RESPONSE }
      | a =>
          { state := s, caught := some (Thrown.msg (availabilityMessage a)),
            ret := SUCCESS_RESPONSE }

/-- Embeds `AuthService.confirm({email, confirmCode})`: look up the verification by
`(email, confirmCode, mode = join)`; throw `'Verification does not exists.'`
when absent; otherwise materialize a user from the stored email/nickname and
the parsed pending payload, append it to the user store, and delete every
`(email, join)` verification.  Always returns `SUCCESS_RESPONSE`. -/
def confirm (email confirmCode : String) (s : AuthState) : OpOut :=
  match s.verifications.find?
      (fun v => v.email == email && v.confirmCode == confirmCode
        && v.mode == VMode.join) with
  | none =>
      { state := s, caught := some (Thrown.msg "Verification does not exists."),
        ret := SUCCESS_RESPONSE }
  | some v =>
      match v.user with
      | none =>
          { state := s, caught := some (Thrown.msg "JSON parse failed."),
            ret := SUCCESS_RESPONSE }
      | some payload =>
          let newUser : UserRec :=
            { id := s.nextUserId, email := v.email, nickname := v.nickname,
              password := payload.password, is_admin := payload.is_admin }
          let s1 : AuthState :=
            { s with users := s.users ++ [newUser], nextUserId := s.nextUserId + 1 }
          { state := deleteVerification s1 v.email VMode.join,
            caught := none, ret := SUCCESS_RESPONSE }

/-- Outcome of `AuthService.login`: the returned user (the method returns
`undefined` when the `try` block threw) and the caught value, if any. -/
structure LoginOut where
  ret : Option UserRec
  caught : Option Thrown
  deriving Repr, DecidableEq

/-- Embeds `AuthService.login({email, password})`: fetch the stored hash by email;
when it is present (and truthy — a JS string is falsy when empty) and
`bcrypt.compare` succeeds, return the full user record; on every other path
throw the shared `UNAUTHORIZED_EXCEPTION`, which the catch block hands to the
error boundary, leaving the return value `undefined`. -/
def login (email plain : String) (s : AuthState) : LoginOut :=
  match findUserPassword s email with
  | some password =>
      if password ≠ "" then
        if bcryptCompare plain password then
          { ret := findUserByEmail s email, caught := none }
        else
          { ret := none, caught := some Thrown.unauthorized }
      else
        { ret := none, caught := some Thrown.unauthorized }
  | none => { ret := none, caught := some Thrown.unauthorized }

/-- Embeds `AuthService.changePasswordNotLoggedIn(email)`: require an existing user
(throw `'User email does not exist.'` otherwise); then upsert the
`(email, change_password)` verification — update the existing row's
`confirmCode` in place, or insert a fresh row with mode `change_password`
(and no nickname or payload).  `confirmCode` stands for the freshly
generated code.  Always returns `SUCCESS_RESPONSE`. -/
def changePasswordNotLoggedIn (confirmCode email : String) (s : AuthState) : OpOut :=
  match findUserByEmail s email with
  | none =>
      { state := s, caught := some (Thrown.msg "User email does not exist."),
        ret := SUCCESS_RESPONSE }
  | some _ =>
      match findVerification s email VMode.change_password with
      | some v =>
          { state :=
              { s with verifications :=
                  s.verifications.map (fun w =>
                    if w.id == v.id then { w with confirmCode := confirmCode }
                    else w) },
            caught := none, ret := SUCCESS_RESPONSE }
      | none =>
          { state :=
              { s with
                  verifications :=
                    s.verifications ++
                      [ { id := s.nextVerificationId, email := email,
                          nickname := none, confirmCode := confirmCode,
                          mode := VMode.change_password, user := none } ],
                  nextVerificationId := s.nextVerificationId + 1 },
            caught := none, ret := SUCCESS_RESPONSE }

/-- Embeds `AuthService.updateUserPassword(find, plainPassword)` at the
`confirmChangePasswordNotLoggedIn` call site (`find = {email}`): hash the
plaintext and set the hash on every user row matching the email. -/
def updateUserPassword (s : AuthState) (email plainPassword : String) : AuthState :=
  { s with users :=
      s.users.map (fun u =>
        if u.email == email then { u with password := encryptPassword plainPassword }
        else u) }

/-- Embeds `AuthService.confirmChangePasswordNotLoggedIn({email, confirmCode, password})`:
look up the verification by `(email, confirmCode, mode = change_password)`;
throw `'Verification does not exists.'` when absent; otherwise update the
user's password by email and delete every `(email, change_password)`
verification.  Always returns `SUCCESS_RESPONSE`. -/
def confirmChangePasswordNotLoggedIn (email confirmCode password : String)
    (s : AuthState) : OpOut :=
  match s.verifications.find?
      (fun v => v.email == email && v.confirmCode == confirmCode
        && v.mode == VMode.change_password) with
  | none =>
      { state := s, caught := some (Thrown.msg "Verification does not exists."),
        ret := SUCCESS_RESPONSE }
  | some _ =>
      { state := deleteVerification (updateUserPassword s email password)
          email VMode.change_password,
        caught := none, ret := SUCCESS_RESPONSE }

/-! ## Helper lemmas -/

/-- Searching for `p` in a list from which every `p`-element was filtered out
finds nothing. -/
theorem find?_filter_not {α : Type} (l : List α) (p : α → Bool) :
    (l.filter (fun a => !(p a))).find? p = none := by
  rw [List.find?_eq_none]
  intro x hx hpx
  have h2 := (List.mem_filter.mp hx).2
  rw [hpx] at h2
  simp at h2

/-- A bcrypt digest is never the empty string, so the JS truthiness test on a
stored hash never rejects a real digest. -/
theorem encryptPassword_ne_empty (p : String) : encryptPassword p ≠ "" := by
  intro h
  unfold encryptPassword at h
  have hl := congrArg String.length h
  rw [String.length_append] at hl
  have h9 : ("bcrypt12$" : String).length = 9 := rfl
  have h0 : ("" : String).length = 0 := rfl
  omega

/-! ## Concrete witness states -/

/-- A pending join verification for `a@x.com`. -/
def vJoin1 : VerificationRec :=
  { id := 1, email := "a@x.com", nickname := some "nick1", confirmCode := "111111",
    mode := VMode.join,
    user := some { password := encryptPassword "pw1", is_admin := false } }

/-- A store holding only `vJoin1`. -/
def s0 : AuthState :=
  { users := [], verifications := [vJoin1], nextUserId := 1, nextVerificationId := 2 }

/-! ## Claims about the question rotation -/

/-- C1: the spec claims the daily rotation deactivates the activated question
and activates the inactive question with the highest id, stamping both with
today's date.  The source instead passes the two closures returned by
`activateQuestionTemplate` to `Promise.all` without invoking them, so the
cron job changes nothing: on the store with question 1 activated and
question 2 inactive, both activation flags and both (unset) date stamps are
exactly as before. -/
theorem updateTodayQuestion_never_updates :
    (∀ today s, updateTodayQuestion today s = s) ∧
    (updateTodayQuestion "2026-10-11" q12store).questions.map Question.activated
      = [true, false] ∧
    (updateTodayQuestion "2026-10-11" q12store).questions.map Question.activated_date
      = [none, none] :=
  ⟨fun _ _ => rfl, rfl, rfl⟩

/-- C2: on every store containing question 1 activated and question 2
inactive, after `updateTodayQuestion` completes exactly one of the two is
activated — never both and never neither. -/
theorem rotation_preserves_exactly_one_activated (today : String)
    (s : QuestionStore) (q1 q2 : Question)
    (h1 : s.questions.find? (fun q => q.id == 1) = some q1)
    (h2 : s.questions.find? (fun q => q.id == 2) = some q2)
    (ha1 : q1.activated = true) (ha2 : q2.activated = false) :
    ∃ r1 r2,
      (updateTodayQuestion today s).questions.find? (fun q => q.id == 1) = some r1 ∧
      (updateTodayQuestion today s).questions.find? (fun q => q.id == 2) = some r2 ∧
      (r1.activated = true ∨ r2.activated = true) ∧
      ¬(r1.activated = true ∧ r2.activated = true) := by
  have hs : updateTodayQuestion today s = s := rfl
  rw [hs]
  refine ⟨q1, q2, h1, h2, Or.inl ha1, ?_⟩
  rintro ⟨-, hb⟩
  rw [ha2] at hb
  exact Bool.false_ne_true hb

/-- Witness for C2 at the spec's scenario store. -/
theorem rotation_preserves_exactly_one_activated_witness :
    (q12store.questions.find? (fun q => q.id == 1) =
      some { id := 1, contents := "q1", activated := true, activated_date := none }) ∧
    (q12store.questions.find? (fun q => q.id == 2) =
      some { id := 2, contents := "q2", activated := false, activated_date := none }) ∧
    ∃ r1 r2,
      (updateTodayQuestion "2026-10-11" q12store).questions.find? (fun q => q.id == 1)
        = some r1 ∧
      (updateTodayQuestion "2026-10-11" q12store).questions.find? (fun q => q.id == 2)
        = some r2 ∧
      (r1.activated = true ∨ r2.activated = true) ∧
      ¬(r1.activated = true ∧ r2.activated = true) :=
  ⟨rfl, rfl,
    rotation_preserves_exactly_one_activated "2026-10-11" q12store _ _ rfl rfl rfl rfl⟩

/-! ## Claims about the auth workflow -/

/-- C9: `join` returns `SUCCESS_RESPONSE` on every internal branch; a failed
step only surfaces through the caught value handed to the error boundary,
never through the return value. -/
theorem join_always_returns_success (cfg : Config)
    (code email plain nickname adminKey : String) (s : AuthState) :
    (join cfg code email plain nickname adminKey s).ret = SUCCESS_RESPONSE := by
  unfold join
  cases findVerification s email VMode.join with
  | some v => rfl
  | none =>
      cases checkJoinDataAvailability s email nickname with
      | Email => rfl
      | Nickname => rfl
      | available => rfl

/-- C8: when no verification matches `(email, code, join)`, `confirm` leaves
the state untouched (no user created, verifications untouched), and the
caught value is the `'Verification does not exists.'` throw, which the error
boundary classifies as `NotFound`; the returned status is still success. -/
theorem confirm_wrong_code_leaves_state_unchanged (email code : String)
    (s : AuthState)
    (h : s.verifications.find?
        (fun v => v.email == email && v.confirmCode == code
          && v.mode == VMode.join) = none) :
    (confirm email code s).state = s ∧
    (confirm email code s).caught = some (Thrown.msg "Verification does not exists.") ∧
    (exceptionHandler (Thrown.msg "Verification does not exists.")).kind
      = ErrKind.NotFound ∧
    (confirm email code s).ret = SUCCESS_RESPONSE := by
  unfold confirm
  rw [h]
  exact ⟨rfl, rfl, by decide, rfl⟩

/-- Witness for C8: a wrong code against the store holding `vJoin1`. -/
theorem confirm_wrong_code_leaves_state_unchanged_witness :
    (s0.verifications.find?
        (fun v => v.email == "a@x.com" && v.confirmCode == "000000"
          && v.mode == VMode.join) = none) ∧
    ((confirm "a@x.com" "000000" s0).state = s0 ∧
      (confirm "a@x.com" "000000" s0).caught
        = some (Thrown.msg "Verification does not exists.") ∧
      (exceptionHandler (Thrown.msg "Verification does not exists.")).kind
        = ErrKind.NotFound ∧
      (confirm "a@x.com" "000000" s0).ret = SUCCESS_RESPONSE) :=
  ⟨by decide,
    confirm_wrong_code_leaves_state_unchanged "a@x.com" "000000" s0 (by decide)⟩

/-- C3: when a join verification matches `(email, code)`, `confirm` appends
exactly one user carrying the verification's email and nickname and the
payload's password hash and admin flag, and afterwards no verification is
retrievable by `(email, join)`. -/
theorem confirm_success_creates_user_and_deletes_verification
    (email code : String) (s : AuthState) (v : VerificationRec)
    (payload : PendingPayload)
    (hfind : s.verifications.find?
        (fun w => w.email == email && w.confirmCode == code
          && w.mode == VMode.join) = some v)
    (hp : v.user = some payload) :
    (confirm email code s).state.users =
      s.users ++ [{ id := s.nextUserId, email := v.email, nickname := v.nickname,
                    password := payload.password, is_admin := payload.is_admin }] ∧
    findVerification (confirm email code s).state email VMode.join = none ∧
    (confirm email code s).caught = none := by
  obtain ⟨vid, vemail, vnick, vcode, vmode, vuser⟩ := v
  have hP := List.find?_some hfind
  simp only [Bool.and_eq_true, beq_iff_eq] at hP
  obtain ⟨⟨he, hc⟩, hm⟩ := hP
  simp only at hp
  subst he hc hm hp
  unfold confirm
  rw [hfind]
  refine ⟨rfl, ?_, rfl⟩
  unfold findVerification deleteVerification
  exact find?_filter_not _ _

/-- Witness for C3: confirming `vJoin1` with its stored code. -/
theorem confirm_success_creates_user_and_deletes_verification_witness :
    (s0.verifications.find?
        (fun w => w.email == "a@x.com" && w.confirmCode == "111111"
          && w.mode == VMode.join) = some vJoin1) ∧
    (vJoin1.user = some { password := encryptPassword "pw1", is_admin := false }) ∧
    ((confirm "a@x.com" "111111" s0).state.users =
        s0.users ++ [{ id := s0.nextUserId, email := vJoin1.email,
                       nickname := vJoin1.nickname,
                       password := (encryptPassword "pw1"), is_admin := false }] ∧
      findVerification (confirm "a@x.com" "111111" s0).state "a@x.com" VMode.join
        = none ∧
      (confirm "a@x.com" "111111" s0).caught = none) :=
  ⟨by decide, rfl,
    confirm_success_creates_user_and_deletes_verification "a@x.com" "111111" s0
      vJoin1 { password := encryptPassword "pw1", is_admin := false }
      (by decide) rfl⟩

/-- The empty string is never a bcrypt digest. -/
theorem empty_beq_encryptPassword (p : String) :
    (("" : String) == encryptPassword p) = false := by
  rw [beq_eq_false_iff_ne]
  exact fun h => encryptPassword_ne_empty p h.symm

/-- C5: `login` returns the full user record exactly when a user with the
email exists and the hash comparison of the supplied plaintext against the
stored hash succeeds; on every failure — unknown email or mismatching
password alike — the caught value is the one shared
`UNAUTHORIZED_EXCEPTION`, so the failure does not reveal whether the email
exists. -/
theorem login_succeeds_iff_email_and_hash_match (email plain : String)
    (s : AuthState) (u : UserRec) :
    ((login email plain s).ret = some u ↔
      findUserByEmail s email = some u ∧ bcryptCompare plain u.password = true) ∧
    ((login email plain s).ret = none →
      (login email plain s).caught = some Thrown.unauthorized) := by
  unfold login findUserPassword
  cases hf : findUserByEmail s email with
  | none =>
      refine ⟨⟨fun h => Option.noConfusion h, fun h => Option.noConfusion h.1⟩,
        fun _ => rfl⟩
  | some w =>
      show ((if w.password ≠ "" then
              if bcryptCompare plain w.password then
                ({ ret := some w, caught := none } : LoginOut)
              else { ret := none, caught := some Thrown.unauthorized }
            else { ret := none, caught := some Thrown.unauthorized }).ret = some u ↔
            some w = some u ∧ bcryptCompare plain u.password = true) ∧
          ((if w.password ≠ "" then
              if bcryptCompare plain w.password then
                ({ ret := some w, caught := none } : LoginOut)
              else { ret := none, caught := some Thrown.unauthorized }
            else { ret := none, caught := some Thrown.unauthorized }).ret = none →
            (if w.password ≠ "" then
              if bcryptCompare plain w.password then
                ({ ret := some w, caught := none } : LoginOut)
              else { ret := none, caught := some Thrown.unauthorized }
            else { ret := none, caught := some Thrown.unauthorized }).caught
              = some Thrown.unauthorized)
      by_cases hpw : w.password = ""
      · rw [if_neg (by simp [hpw])]
        refine ⟨⟨fun h => Option.noConfusion h, ?_⟩, fun _ => rfl⟩
        rintro ⟨hu, hcmp⟩
        injection hu with hu
        subst hu
        rw [hpw] at hcmp
        unfold bcryptCompare at hcmp
        rw [empty_beq_encryptPassword] at hcmp
        exact Bool.noConfusion hcmp
      · rw [if_pos hpw]
        by_cases hc : bcryptCompare plain w.password = true
        · rw [if_pos hc]
          refine ⟨⟨?_, ?_⟩, fun h => Option.noConfusion h⟩
          · intro h
            injection h with h
            subst h
            exact ⟨rfl, hc⟩
          · rintro ⟨hu, -⟩
            exact hu
        · rw [if_neg hc]
          refine ⟨⟨fun h => Option.noConfusion h, ?_⟩, fun _ => rfl⟩
          rintro ⟨hu, hcmp⟩
          injection hu with hu
          subst hu
          exact absurd hcmp hc

/-- After the in-place overwrite of the first `(email, join)` verification,
the first `(email, join)` verification of the new list carries the row id of
the overwritten row and the freshly written columns. -/
theorem find?_map_join_update (email : String) (dto : JoinVerificationDto)
    (hde : dto.email = email)
    (l : List VerificationRec) (v : VerificationRec)
    (hv : l.find? (fun w => w.email == email && w.mode == VMode.join) = some v) :
    ∃ r, (l.map (fun w => if w.id == v.id then applyJoinDto dto w else w)).find?
        (fun w => w.email == email && w.mode == VMode.join) = some r ∧
      r.id = v.id ∧ r.email = email ∧ r.nickname = some dto.nickname ∧
      r.confirmCode = dto.confirmCode ∧ r.user = some dto.user := by
  induction l with
  | nil => cases hv
  | cons w t ih =>
      by_cases hPw : (w.email == email && w.mode == VMode.join) = true
      · rw [List.find?_cons_of_pos (p := fun x : VerificationRec =>
          x.email == email && x.mode == VMode.join) _ hPw] at hv
        injection hv with hv
        subst hv
        refine ⟨applyJoinDto dto w, ?_, rfl, hde, rfl, rfl, rfl⟩
        simp only [List.map_cons, beq_self_eq_true, if_true]
        apply List.find?_cons_of_pos
        simp only [Bool.and_eq_true, beq_iff_eq] at hPw ⊢
        exact ⟨hde, hPw.2⟩
      · rw [List.find?_cons_of_neg (p := fun x : VerificationRec =>
          x.email == email && x.mode == VMode.join) _ hPw] at hv
        obtain ⟨r, hr, hrid, hremail, hrnick, hrcode, hruser⟩ := ih hv
        by_cases hid : (w.id == v.id) = true
        · by_cases hmw : w.mode = VMode.join
          · refine ⟨applyJoinDto dto w, ?_, by simpa using hid, hde, rfl, rfl, rfl⟩
            simp only [List.map_cons, hid, if_true]
            apply List.find?_cons_of_pos
            simp only [applyJoinDto, Bool.and_eq_true, beq_iff_eq]
            exact ⟨hde, hmw⟩
          · refine ⟨r, ?_, hrid, hremail, hrnick, hrcode, hruser⟩
            simp only [List.map_cons, hid, if_true]
            rw [List.find?_cons_of_neg _ ?_]
            · exact hr
            · simp only [applyJoinDto, Bool.and_eq_true, beq_iff_eq]
              rintro ⟨-, hm⟩
              exact hmw hm
        · refine ⟨r, ?_, hrid, hremail, hrnick, hrcode, hruser⟩
          simp only [List.map_cons, hid, if_false, Bool.false_eq_true]
          rw [List.find?_cons_of_neg (p := fun x : VerificationRec =>
            x.email == email && x.mode == VMode.join) _ hPw]
          exact hr

/-- The in-place overwrite never changes a row's primary key. -/
theorem map_id_join_update (rowId : Nat) (dto : JoinVerificationDto)
    (l : List VerificationRec) :
    (l.map (fun w => if w.id == rowId then applyJoinDto dto w else w)).map
        VerificationRec.id = l.map VerificationRec.id := by
  rw [List.map_map]
  apply List.map_congr_left
  intro a _
  by_cases h : (a.id == rowId) = true
  · simp [Function.comp, applyJoinDto, h]
  · simp [Function.comp, h]

/-- Under distinct primary keys, the in-place overwrite of the first
`(email, join)` row changes no row's `(email, mode)` pair. -/
theorem map_pair_join_update (email : String) (dto : JoinVerificationDto)
    (hde : dto.email = email)
    (l : List VerificationRec) (v : VerificationRec)
    (hv : l.find? (fun w => w.email == email && w.mode == VMode.join) = some v)
    (hids : (l.map VerificationRec.id).Nodup) :
    (l.map (fun w => if w.id == v.id then applyJoinDto dto w else w)).map
        (fun w => (w.email, w.mode))
      = l.map (fun w => (w.email, w.mode)) := by
  have hvm := List.mem_of_find?_eq_some hv
  have hP := List.find?_some hv
  simp only [Bool.and_eq_true, beq_iff_eq] at hP
  rw [List.map_map]
  apply List.map_congr_left
  intro a ha
  by_cases h : (a.id == v.id) = true
  · have hav : a = v :=
      List.inj_on_of_nodup_map hids ha hvm (by simpa using h)
    subst hav
    simp [Function.comp, applyJoinDto, h, hde, hP.1]
  · simp [Function.comp, h]

/-- A user claiming nickname `nick2`, used to show the overwrite branch skips
the availability check. -/
def u2 : UserRec :=
  { id := 7, email := "b@x.com", nickname := some "nick2",
    password := encryptPassword "pwb", is_admin := false }

/-- A store where `nick2` is already claimed by `u2` while `vJoin1` is a
pending join verification. -/
def s1claimed : AuthState :=
  { users := [u2], verifications := [vJoin1], nextUserId := 8,
    nextVerificationId := 2 }

/-- C4: when a `(email, join)` verification already exists, `join` overwrites
that row in place: the row count is unchanged, the row ids are unchanged, the
`(email, join)` lookup afterwards yields a row with the same id carrying the
freshly generated confirm code, and — under distinct primary keys — no row
changes its `(email, mode)` pair, so at most one live verification per
`(email, mode)` pair is preserved. -/
theorem join_overwrites_existing_verification_in_place (cfg : Config)
    (code email plain nickname adminKey : String) (s : AuthState)
    (v : VerificationRec)
    (hv : findVerification s email VMode.join = some v)
    (hids : (s.verifications.map VerificationRec.id).Nodup) :
    ((join cfg code email plain nickname adminKey s).state.verifications.length
      = s.verifications.length) ∧
    ((join cfg code email plain nickname adminKey s).state.verifications.map
        VerificationRec.id
      = s.verifications.map VerificationRec.id) ∧
    (∃ r, findVerification (join cfg code email plain nickname adminKey s).state
        email VMode.join = some r ∧ r.id = v.id ∧ r.confirmCode = code) ∧
    ((join cfg code email plain nickname adminKey s).state.verifications.map
        (fun w => (w.email, w.mode))
      = s.verifications.map (fun w => (w.email, w.mode))) := by
  unfold join
  rw [hv]
  refine ⟨?_, ?_, ?_, ?_⟩
  · show (updateVerificationJoinDto s v.id _).verifications.length
      = s.verifications.length
    simp [updateVerificationJoinDto]
  · exact map_id_join_update v.id _ s.verifications
  · obtain ⟨r, hr, hrid, hremail, hrnick, hrcode, hruser⟩ :=
      find?_map_join_update email
        { email := email, nickname := nickname, confirmCode := code,
          user := { password := encryptPassword plain,
                    is_admin := adminKey == cfg.adminKey } }
        rfl s.verifications v hv
    exact ⟨r, hr, hrid, hrcode⟩
  · exact map_pair_join_update email
      { email := email, nickname := nickname, confirmCode := code,
        user := { password := encryptPassword plain,
                  is_admin := adminKey == cfg.adminKey } }
      rfl s.verifications v hv hids

/-- Witness for C4 on the store holding the single verification `vJoin1`. -/
theorem join_overwrites_existing_verification_in_place_witness :
    (findVerification s0 "a@x.com" VMode.join = some vJoin1) ∧
    ((s0.verifications.map VerificationRec.id).Nodup) ∧
    (((join { adminKey := "AK" } "999999" "a@x.com" "pw9" "nick9" "zz"
          s0).state.verifications.length = s0.verifications.length) ∧
      ((join { adminKey := "AK" } "999999" "a@x.com" "pw9" "nick9" "zz"
          s0).state.verifications.map VerificationRec.id
        = s0.verifications.map VerificationRec.id) ∧
      (∃ r, findVerification (join { adminKey := "AK" } "999999" "a@x.com" "pw9"
          "nick9" "zz" s0).state "a@x.com" VMode.join = some r ∧
        r.id = vJoin1.id ∧ r.confirmCode = "999999") ∧
      ((join { adminKey := "AK" } "999999" "a@x.com" "pw9" "nick9" "zz"
          s0).state.verifications.map (fun w => (w.email, w.mode))
        = s0.verifications.map (fun w => (w.email, w.mode)))) :=
  ⟨by decide, by decide,
    join_overwrites_existing_verification_in_place { adminKey := "AK" } "999999"
      "a@x.com" "pw9" "nick9" "zz" s0 vJoin1 (by decide) (by decide)⟩

/-- C10: when a `(email, join)` verification exists, a second `join` call
takes the overwrite branch with no availability check — it catches nothing
and succeeds for every store, even one where the new nickname is already
claimed — and the stored nickname, confirm code, password hash and admin
flag are replaced by values computed from the new inputs. -/
theorem join_overwrite_replaces_payload_without_availability_check
    (cfg : Config) (code email plain nickname adminKey : String)
    (s : AuthState) (v : VerificationRec)
    (hv : findVerification s email VMode.join = some v) :
    (join cfg code email plain nickname adminKey s).caught = none ∧
    (join cfg code email plain nickname adminKey s).ret = SUCCESS_RESPONSE ∧
    ∃ r, findVerification (join cfg code email plain nickname adminKey s).state
        email VMode.join = some r ∧
      r.id = v.id ∧ r.nickname = some nickname ∧ r.confirmCode = code ∧
      r.user = some { password := encryptPassword plain,
                      is_admin := adminKey == cfg.adminKey } := by
  unfold join
  rw [hv]
  refine ⟨rfl, rfl, ?_⟩
  obtain ⟨r, hr, hrid, hremail, hrnick, hrcode, hruser⟩ :=
    find?_map_join_update email
      { email := email, nickname := nickname, confirmCode := code,
        user := { password := encryptPassword plain,
                  is_admin := adminKey == cfg.adminKey } }
      rfl s.verifications v hv
  exact ⟨r, hr, hrid, hrnick, hrcode, hruser⟩

/-- Witness for C10 on a store where the new nickname `nick2` is already
claimed by the existing user `u2`. -/
theorem join_overwrite_replaces_payload_without_availability_check_witness :
    (findVerification s1claimed "a@x.com" VMode.join = some vJoin1) ∧
    (findUserByNickname s1claimed "nick2" = some u2) ∧
    ((join { adminKey := "AK" } "222222" "a@x.com" "pw2" "nick2" "AK"
        s1claimed).caught = none ∧
      (join { adminKey := "AK" } "222222" "a@x.com" "pw2" "nick2" "AK"
        s1claimed).ret = SUCCESS_RESPONSE ∧
      ∃ r, findVerification (join { adminKey := "AK" } "222222" "a@x.com" "pw2"
          "nick2" "AK" s1claimed).state "a@x.com" VMode.join = some r ∧
        r.id = vJoin1.id ∧ r.nickname = some "nick2" ∧ r.confirmCode = "222222" ∧
        r.user = some { password := encryptPassword "pw2",
                        is_admin := ("AK" == "AK") }) :=
  ⟨by decide, by decide,
    join_overwrite_replaces_payload_without_availability_check
      { adminKey := "AK" } "222222" "a@x.com" "pw2" "nick2" "AK" s1claimed
      vJoin1 (by decide)⟩

/-- A pending change-password verification claiming email `c@x.com`. -/
def vCp : VerificationRec :=
  { id := 3, email := "c@x.com", nickname := none, confirmCode := "333333",
    mode := VMode.change_password, user := none }

/-- A store whose only record is `vCp`: the email `c@x.com` is claimed by a
pending verification but by no user and by no `(c@x.com, join)` row. -/
def sCp : AuthState :=
  { users := [], verifications := [vCp], nextUserId := 1,
    nextVerificationId := 4 }

/-- C6 counterexample: in `sCp` a pending verification claims the email
`c@x.com` and no `(c@x.com, join)` verification exists, so the claim
requires `join` for `c@x.com` to be rejected with the "Email already
exists." signal; instead the availability check (which looks verifications
up by nickname only) passes, nothing is thrown, and a fresh verification row
is inserted. -/
theorem join_not_rejected_when_pending_verification_claims_email :
    (findVerification sCp "c@x.com" VMode.join = none) ∧
    (sCp.verifications.find? (fun v => v.email == "c@x.com") = some vCp) ∧
    ((join { adminKey := "AK" } "444444" "c@x.com" "pw" "nickc" "x" sCp).caught
      = none) ∧
    ((join { adminKey := "AK" } "444444" "c@x.com" "pw" "nickc" "x"
        sCp).state.verifications.length = 2) :=
  ⟨by decide, by decide, by decide, by decide⟩

/-- C6 as amended: in a state with no `(email, join)` verification, `join`
rejects with "Email already exists." exactly when an existing **user** claims
the email; it rejects with "Nickname already exists." when no user claims the
email but a user or any pending verification claims the nickname; a pending
verification claiming only the email causes no rejection; and when an email
collision and a nickname collision coincide, the email collision is
reported. -/
theorem join_availability_characterization (cfg : Config)
    (code email plain nickname adminKey : String) (s : AuthState)
    (hnov : findVerification s email VMode.join = none) :
    (join cfg code email plain nickname adminKey s).caught =
      (if (findUserByEmail s email).isSome then
        some (Thrown.msg "Email already exists.")
      else if (findUserByNickname s nickname).isSome
          || (s.verifications.find? (fun v => v.nickname == some nickname)).isSome
        then some (Thrown.msg "Nickname already exists.")
      else none) := by
  unfold join checkJoinDataAvailability
  rw [hnov]
  cases hE : (findUserByEmail s email).isSome <;>
    cases hN : (findUserByNickname s nickname).isSome <;>
      cases hV : (s.verifications.find?
          (fun v => v.nickname == some nickname)).isSome <;>
        simp [hE, hN, hV, availabilityMessage]

/-- A user claiming both the email `c@x.com` and the nickname `nickc`. -/
def uC : UserRec :=
  { id := 9, email := "c@x.com", nickname := some "nickc",
    password := encryptPassword "pwc", is_admin := false }

/-- A store in which `join("c@x.com", _, "nickc", _)` collides on both the
email and the nickname. -/
def sBoth : AuthState :=
  { users := [uC], verifications := [], nextUserId := 10,
    nextVerificationId := 1 }

/-- Witness for the amended C6 at a state with both collisions: the email
collision is the one reported. -/
theorem join_availability_characterization_witness :
    (findVerification sBoth "c@x.com" VMode.join = none) ∧
    ((join { adminKey := "AK" } "555555" "c@x.com" "pw" "nickc" "x"
        sBoth).caught =
      (if (findUserByEmail sBoth "c@x.com").isSome then
        some (Thrown.msg "Email already exists.")
      else if (findUserByNickname sBoth "nickc").isSome
          || (sBoth.verifications.find?
              (fun v => v.nickname == some "nickc")).isSome
        then some (Thrown.msg "Nickname already exists.")
      else none)) :=
  ⟨by decide,
    join_availability_characterization { adminKey := "AK" } "555555" "c@x.com"
      "pw" "nickc" "x" sBoth (by decide)⟩

/-- The operation `changePasswordNotLoggedIn` never touches the user store. -/
theorem changePasswordNotLoggedIn_users (code1 email : String) (s : AuthState) :
    (changePasswordNotLoggedIn code1 email s).state.users = s.users := by
  unfold changePasswordNotLoggedIn
  cases findUserByEmail s email with
  | none => rfl
  | some u =>
      cases findVerification s email VMode.change_password with
      | none => rfl
      | some v => rfl

/-- After `changePasswordNotLoggedIn` for an existing user, some
`(email, change_password)` verification carries the freshly issued code. -/
theorem cpnl_creates_code_match (code1 email : String) (s : AuthState)
    (u : UserRec) (hu : findUserByEmail s email = some u) :
    ((changePasswordNotLoggedIn code1 email s).state.verifications.find?
      (fun w => w.email == email && w.confirmCode == code1
        && w.mode == VMode.change_password)).isSome = true := by
  unfold changePasswordNotLoggedIn
  rw [hu]
  cases hv : findVerification s email VMode.change_password with
  | some v =>
      have hvm := List.mem_of_find?_eq_some hv
      have hP := List.find?_some hv
      simp only [Bool.and_eq_true, beq_iff_eq] at hP
      exact List.find?_isSome.mpr
        ⟨{ v with confirmCode := code1 },
          List.mem_map.mpr ⟨v, hvm, by simp⟩,
          by simp [hP.1, hP.2]⟩
  | none =>
      exact List.find?_isSome.mpr
        ⟨{ id := s.nextVerificationId, email := email, nickname := none,
           confirmCode := code1, mode := VMode.change_password, user := none },
          List.mem_append_right _ (List.mem_singleton.mpr rfl),
          by simp⟩

/-- Two members of a list of length at most one coincide. -/
theorem mem_eq_of_length_le_one {α : Type} {l : List α} (h : l.length ≤ 1)
    {a b : α} (ha : a ∈ l) (hb : b ∈ l) : a = b := by
  cases l with
  | nil => cases ha
  | cons x t =>
      cases t with
      | nil =>
          rw [List.mem_singleton] at ha hb
          rw [ha, hb]
      | cons y t2 =>
          exfalso
          simp only [List.length_cons] at h
          omega

/-- After `changePasswordNotLoggedIn` re-issues the code for a registered
user, every `(email, change_password)` row carries the fresh `code1`, so any
other code — in particular a superseded earlier code — matches nothing.  The
hypothesis `hmost` is the spec's at-most-one-live-verification-per-pair
invariant for this `(email, change_password)` pair. -/
theorem cpnl_wrong_code_matches_nothing (code1 code2 email : String)
    (s : AuthState) (u : UserRec)
    (hu : findUserByEmail s email = some u)
    (hcode : code2 ≠ code1)
    (hmost : (s.verifications.filter (fun w => w.email == email
        && w.mode == VMode.change_password)).length ≤ 1) :
    (changePasswordNotLoggedIn code1 email s).state.verifications.find?
      (fun w => w.email == email && w.confirmCode == code2
        && w.mode == VMode.change_password) = none := by
  unfold changePasswordNotLoggedIn
  rw [hu]
  cases hv : findVerification s email VMode.change_password with
  | some v =>
      have hv2 : s.verifications.find? (fun w => w.email == email
          && w.mode == VMode.change_password) = some v := hv
      have hvm := List.mem_of_find?_eq_some hv2
      have hPv : (v.email == email && v.mode == VMode.change_password) = true :=
        List.find?_some (p := fun w : VerificationRec => w.email == email
          && w.mode == VMode.change_password) hv2
      have huniq : ∀ w ∈ s.verifications,
          (w.email == email && w.mode == VMode.change_password) = true → w = v := by
        intro w hw hPw
        exact mem_eq_of_length_le_one hmost
          (List.mem_filter.mpr ⟨hw, hPw⟩) (List.mem_filter.mpr ⟨hvm, hPv⟩)
      rw [List.find?_eq_none]
      intro x hx hpx
      simp only [Bool.and_eq_true, beq_iff_eq] at hpx
      obtain ⟨w, hw, hfw⟩ := List.mem_map.mp hx
      by_cases hid : (w.id == v.id) = true
      · rw [if_pos hid] at hfw
        subst hfw
        exact hcode hpx.1.2.symm
      · rw [if_neg hid] at hfw
        subst hfw
        have hwv : w = v := huniq w hw (by simp [hpx.1.1, hpx.2])
        exact hid (by rw [hwv]; simp)
  | none =>
      have hv2 : s.verifications.find? (fun w => w.email == email
          && w.mode == VMode.change_password) = none := hv
      have hnone0 := List.find?_eq_none.mp hv2
      rw [List.find?_eq_none]
      intro x hx hpx
      simp only [Bool.and_eq_true, beq_iff_eq] at hpx
      rcases List.mem_append.mp hx with hx1 | hx2
      · exact hnone0 x hx1 (by simp [hpx.1.1, hpx.2])
      · have hx3 : x = { id := s.nextVerificationId, email := email,
                           nickname := none, confirmCode := code1,
                           mode := VMode.change_password, user := none } := by
          simpa using hx2
        subst hx3
        exact hcode hpx.1.2.symm

/-- Updating the password hash of every user matching the email commutes with
the lookup by email. -/
theorem find?_map_password_update (email newPw : String) (l : List UserRec) :
    (l.map (fun x => if x.email == email then
        { x with password := encryptPassword newPw } else x)).find?
      (fun x => x.email == email)
    = (l.find? (fun x => x.email == email)).map (fun x =>
        if x.email == email then
          { x with password := encryptPassword newPw } else x) := by
  have hpg : ((fun x : UserRec => x.email == email) ∘ (fun x =>
      if x.email == email then
        { x with password := encryptPassword newPw } else x))
      = (fun x : UserRec => x.email == email) := by
    funext x
    by_cases h : (x.email == email) = true <;> simp [Function.comp, h]
  rw [List.find?_map, hpg]

/-- C7: for a registered user — in a state satisfying the at-most-one
`(email, change_password)` verification invariant — `changePasswordNotLoggedIn`
followed by `confirmChangePasswordNotLoggedIn` with the freshly issued code
replaces the stored hash with the hash of the new password and deletes the
`(email, change_password)` verification, while any non-matching code (any
code other than the freshly issued one, including a superseded earlier code)
takes the not-found branch and leaves the state, and hence the user's stored
hash, unchanged. -/
theorem change_password_flow_updates_hash_and_deletes_verification
    (code1 code2 newPw email : String) (s : AuthState) (u : UserRec)
    (hu : findUserByEmail s email = some u)
    (hcode : code2 ≠ code1)
    (hmost : (s.verifications.filter (fun w => w.email == email
        && w.mode == VMode.change_password)).length ≤ 1) :
    (findUserByEmail
        (confirmChangePasswordNotLoggedIn email code1 newPw
          (changePasswordNotLoggedIn code1 email s).state).state email
      = some { u with password := encryptPassword newPw }) ∧
    (findVerification
        (confirmChangePasswordNotLoggedIn email code1 newPw
          (changePasswordNotLoggedIn code1 email s).state).state
        email VMode.change_password = none) ∧
    ((confirmChangePasswordNotLoggedIn email code2 newPw
        (changePasswordNotLoggedIn code1 email s).state).state
      = (changePasswordNotLoggedIn code1 email s).state) ∧
    (findUserByEmail
        (confirmChangePasswordNotLoggedIn email code2 newPw
          (changePasswordNotLoggedIn code1 email s).state).state email
      = some u) := by
  have hex := cpnl_creates_code_match code1 email s u hu
  obtain ⟨w0, hw0⟩ := Option.isSome_iff_exists.mp hex
  have hnone := cpnl_wrong_code_matches_nothing code1 code2 email s u hu hcode hmost
  refine ⟨?_, ?_, ?_, ?_⟩
  · unfold confirmChangePasswordNotLoggedIn
    rw [hw0]
    show ((changePasswordNotLoggedIn code1 email s).state.users.map (fun x =>
        if x.email == email then { x with password := encryptPassword newPw }
        else x)).find? (fun x => x.email == email)
      = some { u with password := encryptPassword newPw }
    rw [find?_map_password_update, changePasswordNotLoggedIn_users]
    rw [show List.find? (fun x : UserRec => x.email == email) s.users
      = some u from hu]
    have hu2 : List.find? (fun x : UserRec => x.email == email) s.users
      = some u := hu
    have hue : (u.email == email) = true :=
      List.find?_some (p := fun x : UserRec => x.email == email) hu2
    have heq : u.email = email := by simpa using hue
    simp [heq]
  · unfold confirmChangePasswordNotLoggedIn
    rw [hw0]
    exact find?_filter_not _ _
  · unfold confirmChangePasswordNotLoggedIn
    rw [hnone]
  · unfold confirmChangePasswordNotLoggedIn
    rw [hnone]
    show List.find? (fun x : UserRec => x.email == email)
      (changePasswordNotLoggedIn code1 email s).state.users = some u
    rw [changePasswordNotLoggedIn_users]
    exact hu

/-- A superseded change-password verification for `c@x.com`: its code
`000000` is overwritten when the flow below re-issues a code. -/
def vCpOld : VerificationRec :=
  { id := 5, email := "c@x.com", nickname := none, confirmCode := "000000",
    mode := VMode.change_password, user := none }

/-- A store holding the registered user `uC` and the pre-existing
change-password verification `vCpOld`. -/
def sUser : AuthState :=
  { users := [uC], verifications := [vCpOld], nextUserId := 10,
    nextVerificationId := 6 }

/-- Witness for C7: the full password-reset flow for `uC` where the re-issued
code is `777777` and the wrong code `000000` is exactly the superseded code
of the pre-existing verification `vCpOld`. -/
theorem change_password_flow_updates_hash_and_deletes_verification_witness :
    (findUserByEmail sUser "c@x.com" = some uC) ∧
    ("000000" ≠ "777777") ∧
    ((sUser.verifications.filter (fun w => w.email == "c@x.com"
        && w.mode == VMode.change_password)).length ≤ 1) ∧
    ((findUserByEmail
        (confirmChangePasswordNotLoggedIn "c@x.com" "777777" "newpw"
          (changePasswordNotLoggedIn "777777" "c@x.com" sUser).state).state
        "c@x.com"
      = some { uC with password := encryptPassword "newpw" }) ∧
    (findVerification
        (confirmChangePasswordNotLoggedIn "c@x.com" "777777" "newpw"
          (changePasswordNotLoggedIn "777777" "c@x.com" sUser).state).state
        "c@x.com" VMode.change_password = none) ∧
    ((confirmChangePasswordNotLoggedIn "c@x.com" "000000" "newpw"
        (changePasswordNotLoggedIn "777777" "c@x.com" sUser).state).state
      = (changePasswordNotLoggedIn "777777" "c@x.com" sUser).state) ∧
    (findUserByEmail
        (confirmChangePasswordNotLoggedIn "c@x.com" "000000" "newpw"
          (changePasswordNotLoggedIn "777777" "c@x.com" sUser).state).state
        "c@x.com"
      = some uC)) :=
  ⟨by decide, by decide, by decide,
    change_password_flow_updates_hash_and_deletes_verification "777777" "000000"
      "newpw" "c@x.com" sUser uC (by decide) (by decide) (by decide)⟩

end Moodlight
